import Mathlib

/-!
# Verification of the WranglesRunnerBot JSON-LD preparation pipeline

Shallow embedding of `code/tools/prepare_wrangles.py`: the record
normalizer (`create_comprehensive_record`, `normalize_url`,
`normalize_urls_recursive`), the content filter (`should_include_record`),
the deduplicator (`create_unique_key_from_record`,
`process_json_data_objects`) and the enricher (the `_step_content` /
`_code_content` blocks), together with the parts of Python's standard
library the script relies on (`urllib.parse.urljoin`, `str.replace`,
truthiness, `str()` / `repr()` rendering of values).

JSON values are modelled by the inductive `Json`; Python `None` and JSON
`null` coincide (as they do after `json.loads`).  Python dicts are
modelled as insertion-ordered association lists with unique keys; the
dict operations (`get`, `in`, item assignment) are embedded so that an
existing key keeps its position and a fresh key is appended, exactly as
in CPython.  Functions that would raise a Python exception (for example
`'_'.join` over non-strings) return `none`.
-/

set_option maxHeartbeats 1000000

/-- JSON values as produced by Python's `json.loads` (`null` ↔ `None`).
Numbers are modelled as integers: no claim involves numeric values, and
the script never computes with them. -/
inductive Json where
  | null : Json
  | bool : Bool → Json
  | num : Int → Json
  | str : String → Json
  | arr : List Json → Json
  | obj : List (String × Json) → Json
  deriving Repr

mutual

def Json.beq : Json → Json → Bool
  | .null, .null => true
  | .bool a, .bool b => a == b
  | .num a, .num b => a == b
  | .str a, .str b => a == b
  | .arr xs, .arr ys => Json.beqList xs ys
  | .obj xs, .obj ys => Json.beqFields xs ys
  | _, _ => false

def Json.beqList : List Json → List Json → Bool
  | [], [] => true
  | x :: xs, y :: ys => Json.beq x y && Json.beqList xs ys
  | _, _ => false

def Json.beqFields : List (String × Json) → List (String × Json) → Bool
  | [], [] => true
  | (k, v) :: xs, (k', v') :: ys => k == k' && Json.beq v v' && Json.beqFields xs ys
  | _, _ => false

end

/-- A Python dict as it appears after `json.loads`: an insertion-ordered
association list (keys unique in any dict Python can actually build). -/
abbrev PyDict := List (String × Json)

/-- Python truthiness (`bool(v)`) on JSON values: `None`, `False`, `0`,
`""`, `[]` and the empty dict are falsy. -/
def pyTruthy : Json → Bool
  | .null => false
  | .bool b => b
  | .num n => n ≠ 0
  | .str s => s ≠ ""
  | .arr xs => !xs.isEmpty
  | .obj fs => !fs.isEmpty

/-- `d.get(k)` / `d[k]`: first (only) binding of `k`. -/
def getKey : PyDict → String → Option Json
  | [], _ => none
  | (k', v) :: rest, k => if k' = k then some v else getKey rest k

/-- `d[k] = v`: replace the binding in place if present, else append —
CPython dict item assignment keeps an existing key's position. -/
def setKey : PyDict → String → Json → PyDict
  | [], k, v => [(k, v)]
  | (k', v') :: rest, k, v =>
      if k' = k then (k, v) :: rest else (k', v') :: setKey rest k v

/-- `k in d`. -/
def hasKey (d : PyDict) (k : String) : Bool :=
  (getKey d k).isSome

/-- `s.startswith(p)` (Python). -/
def pyStartsWith (s p : String) : Bool :=
  p.data.isPrefixOf s.data

/-- `'sep'.join(xs)` over a list of values: defined only when every
element is a string (otherwise CPython raises `TypeError`, modelled as
`none`). -/
def pyJoin (sep : String) : List Json → Option String
  | [] => some ""
  | [.str s] => some s
  | .str s :: x :: rest =>
      (pyJoin sep (x :: rest)).map (fun r => s ++ sep ++ r)
  | _ => none

/-- One character of a Python `repr` string literal (printable
characters other than the quote and backslash are kept as-is; the
`\xhh` rendering of non-printables is not modelled — no input of
interest contains them). -/
def pyEscapeChar (q : Char) (c : Char) : List Char :=
  if c = '\\' then ['\\', '\\']
  else if c = q then ['\\', q]
  else if c = '\n' then ['\\', 'n']
  else if c = '\r' then ['\\', 'r']
  else if c = '\t' then ['\\', 't']
  else [c]

/-- Python `repr` of a string: single-quoted unless the string contains
a single quote and no double quote. -/
def pyReprStr (s : String) : String :=
  let q : Char := if s.contains '\'' && !(s.contains '"') then '"' else '\''
  ⟨q :: (s.data.map (pyEscapeChar q)).flatten ++ [q]⟩

mutual

/-- Python `str(v)` for a JSON value. -/
def pyStr : Json → String
  | .null => "None"
  | .bool true => "True"
  | .bool false => "False"
  | .num n => toString n
  | .str s => s
  | .arr xs => "[" ++ String.intercalate ", " (pyStrList xs) ++ "]"
  | .obj fs => "\x7b" ++ String.intercalate ", " (pyStrFields fs) ++ "\x7d"

/-- Python `repr(v)` for a JSON value (differs from `str` only on
strings, where it quotes). -/
def pyRepr : Json → String
  | .str s => pyReprStr s
  | .null => "None"
  | .bool true => "True"
  | .bool false => "False"
  | .num n => toString n
  | .arr xs => "[" ++ String.intercalate ", " (pyStrList xs) ++ "]"
  | .obj fs => "\x7b" ++ String.intercalate ", " (pyStrFields fs) ++ "\x7d"

def pyStrList : List Json → List String
  | [] => []
  | x :: rest => pyRepr x :: pyStrList rest

def pyStrFields : List (String × Json) → List String
  | [] => []
  | (k, v) :: rest => (pyReprStr k ++ ": " ++ pyRepr v) :: pyStrFields rest

end

/-!
## `urllib.parse` (CPython)

The script resolves relative URLs with `urllib.parse.urljoin`.  The
functions below embed CPython's `urlsplit`, `urlparse`, `urlunsplit`,
`urlunparse` and `urljoin` over `List Char`, following the reference
implementation (the IPv6 bracket validation and netloc sanity checks,
which only raise on malformed input, are not modelled).
-/

/-- Characters allowed in a URL scheme (`urllib.parse.scheme_chars`). -/
def scheme_chars : List Char :=
  "abcdefghijklmnopqrstuvwxyzABCDEFGHIJKLMNOPQRSTUVWXYZ0123456789+-.".data

/-- `urllib.parse.uses_relative`. -/
def uses_relative : List String :=
  ["", "ftp", "http", "gopher", "nntp", "imap", "wais", "file", "https",
   "shttp", "mms", "prospero", "rtsp", "rtspu", "sftp", "svn", "svn+ssh",
   "ws", "wss"]

/-- `urllib.parse.uses_netloc`. -/
def uses_netloc : List String :=
  ["", "ftp", "http", "gopher", "nntp", "telnet", "imap", "wais", "file",
   "mms", "https", "shttp", "snews", "prospero", "rtsp", "rtspu", "rsync",
   "svn", "svn+ssh", "sftp", "nfs", "git", "git+ssh", "ws", "wss",
   "itms-services"]

/-- `urllib.parse.uses_params`. -/
def uses_params : List String :=
  ["", "ftp", "hdl", "prospero", "http", "imap", "https", "shttp", "rtsp",
   "rtspu", "sip", "sips", "mms", "sftp", "tel"]

/-- `s.find(c, start)`: index of the first occurrence of `c` at
position `start` or later (`none` for Python's `-1`). -/
def lcFindAux (c : Char) (start : Nat) : List Char → Nat → Option Nat
  | [], _ => none
  | x :: rest, i =>
      if start ≤ i ∧ x = c then some i else lcFindAux c start rest (i + 1)

/-- `s.find(c, start)`. -/
def lcFindFrom (s : List Char) (c : Char) (start : Nat) : Option Nat :=
  lcFindAux c start s 0

/-- `s.find(c)`. -/
def lcFind (s : List Char) (c : Char) : Option Nat :=
  lcFindFrom s c 0

/-- `s.rfind(c)`: index of the last occurrence of `c`. -/
def lcRFindAux (c : Char) : List Char → Nat → Option Nat → Option Nat
  | [], _, acc => acc
  | x :: rest, i, acc => lcRFindAux c rest (i + 1) (if x = c then some i else acc)

/-- `s.rfind(c)` (`none` for Python's `-1`). -/
def lcRFind (s : List Char) (c : Char) : Option Nat :=
  lcRFindAux c s 0 none

/-- `s.split(c, 1)`: split at the first occurrence of `c` (both parts
without the separator); if `c` is absent the whole input is the first
part (call sites guard with a containment test, as CPython does). -/
def lcSplitOnce (c : Char) : List Char → List Char × List Char
  | [] => ([], [])
  | x :: rest =>
      if x = c then ([], rest)
      else
        let r := lcSplitOnce c rest
        (x :: r.1, r.2)

/-- `s.split(c)`: split at every occurrence of `c`, keeping empty
segments; the result is always nonempty (`"".split(c) == ['']`). -/
def lcSplitAll (c : Char) : List Char → List (List Char)
  | [] => [[]]
  | x :: rest =>
      match lcSplitAll c rest with
      | [] => [[]]
      | h :: t => if x = c then [] :: h :: t else (x :: h) :: t

/-- `c.join(parts)` for a character separator. -/
def lcJoinSep (c : Char) : List (List Char) → List Char
  | [] => []
  | [x] => x
  | x :: y :: rest => x ++ c :: lcJoinSep c (y :: rest)

/-- `needle in hay` (substring containment). -/
def lcContainsSub (needle : List Char) : List Char → Bool
  | [] => needle.isEmpty
  | c :: rest => needle.isPrefixOf (c :: rest) || lcContainsSub needle rest

/-- Work loop of `lcReplace`.  The fuel argument makes the recursion
structural; every step consumes at least one character (the pattern is
nonempty in the replacing branch), so with fuel equal to the string
length the `0` case is never reached on a nonempty string. -/
def lcReplaceAux (pat rep : List Char) : Nat → List Char → List Char
  | _, [] => []
  | 0, s => s
  | fuel + 1, c :: rest =>
      if pat.isPrefixOf (c :: rest) ∧ 0 < pat.length then
        rep ++ lcReplaceAux pat rep fuel ((c :: rest).drop pat.length)
      else
        c :: lcReplaceAux pat rep fuel rest

/-- `s.replace(pat, rep)`: left-to-right, non-overlapping (for a
nonempty pattern, as in every use in the script). -/
def lcReplace (pat rep : List Char) (s : List Char) : List Char :=
  lcReplaceAux pat rep s.length s

/-- The five components returned by `urllib.parse.urlsplit`. -/
structure SplitResult where
  scheme : List Char
  netloc : List Char
  path : List Char
  query : List Char
  fragment : List Char

/-- The six components returned by `urllib.parse.urlparse`. -/
structure ParseResult where
  scheme : List Char
  netloc : List Char
  path : List Char
  params : List Char
  query : List Char
  fragment : List Char

/-- `urllib.parse._splitnetloc`: the netloc runs from `start` to the
first `/`, `?` or `#` after it. -/
def splitnetloc (url : List Char) (start : Nat) : List Char × List Char :=
  let d1 := (lcFindFrom url '/' start).getD url.length
  let d2 := (lcFindFrom url '?' start).getD url.length
  let d3 := (lcFindFrom url '#' start).getD url.length
  let delim := min d1 (min d2 d3)
  ((url.drop start).take (delim - start), url.drop delim)

/-- `urllib.parse.urlsplit(url, scheme=dscheme, allow_fragments=True)`.
Tab, CR and LF are removed up front (`_UNSAFE_URL_BYTES_TO_REMOVE`); a
scheme is recognised when a `:` is preceded by an ASCII letter followed
by scheme characters only (`Char.isAlpha` is exactly Python's
`c.isascii() and c.isalpha()`). -/
def urlsplit (url0 : List Char) (dscheme : List Char) : SplitResult :=
  let url := url0.filter (fun c => !(c = '\t' || c = '\r' || c = '\n'))
  let p1 : List Char × List Char :=
    match lcFind url ':' with
    | some i =>
        if 0 < i
            && (url.take 1).all (fun ch => ch.isAlpha)
            && (url.take i).all (fun ch => scheme_chars.contains ch) then
          ((url.take i).map Char.toLower, url.drop (i + 1))
        else (dscheme, url)
    | none => (dscheme, url)
  let p2 : List Char × List Char :=
    if ['/', '/'].isPrefixOf p1.2 then splitnetloc p1.2 2 else ([], p1.2)
  let p3 : List Char × List Char :=
    if p2.2.contains '#' then lcSplitOnce '#' p2.2 else (p2.2, [])
  let p4 : List Char × List Char :=
    if p3.1.contains '?' then lcSplitOnce '?' p3.1 else (p3.1, [])
  ⟨p1.1, p2.1, p4.1, p4.2, p3.2⟩

/-- `urllib.parse._splitparams` (the branch where `;` is absent after
the last `/` returns the input unchanged; CPython only calls this when
`;` occurs in the path). -/
def splitparams (url : List Char) : List Char × List Char :=
  let i :=
    if url.contains '/' then lcFindFrom url ';' ((lcRFind url '/').getD 0)
    else lcFind url ';'
  match i with
  | some i => (url.take i, url.drop (i + 1))
  | none => (url, [])

/-- `urllib.parse.urlparse(url, scheme=dscheme)`. -/
def urlparse (url : List Char) (dscheme : List Char) : ParseResult :=
  let sp := urlsplit url dscheme
  let pp :=
    if uses_params.contains (String.mk sp.scheme) && sp.path.contains ';' then
      splitparams sp.path
    else (sp.path, [])
  ⟨sp.scheme, sp.netloc, pp.1, pp.2, sp.query, sp.fragment⟩

/-- `urllib.parse.urlunsplit`. -/
def urlunsplit (scheme netloc path query fragment : List Char) : List Char :=
  let url :=
    if !netloc.isEmpty || (!path.isEmpty && ['/', '/'].isPrefixOf path) then
      let url1 := if !path.isEmpty && !(['/'].isPrefixOf path) then '/' :: path else path
      '/' :: '/' :: (netloc ++ url1)
    else path
  let url := if !scheme.isEmpty then scheme ++ ':' :: url else url
  let url := if !query.isEmpty then url ++ '?' :: query else url
  if !fragment.isEmpty then url ++ '#' :: fragment else url

/-- `urllib.parse.urlunparse`. -/
def urlunparse (p : ParseResult) : List Char :=
  let path := if !p.params.isEmpty then p.path ++ ';' :: p.params else p.path
  urlunsplit p.scheme p.netloc path p.query p.fragment

/-- The slice assignment `segments[1:-1] = filter(None, segments[1:-1])`
in `urljoin`: drop empty segments, keeping the first and last. -/
def filterMiddle (xs : List (List Char)) : List (List Char) :=
  match xs with
  | [] => []
  | [a] => [a]
  | a :: rest =>
      a :: (rest.dropLast.filter (fun s => !s.isEmpty)
            ++ rest.drop (rest.length - 1))

/-- The segment-resolution loop of `urljoin` (`..` pops, `.` is
dropped, popping an empty stack is a no-op). -/
def resolveSegs (acc : List (List Char)) : List (List Char) → List (List Char)
  | [] => acc
  | seg :: rest =>
      if seg = ['.', '.'] then resolveSegs acc.dropLast rest
      else if seg = ['.'] then resolveSegs acc rest
      else resolveSegs (acc ++ [seg]) rest

/-- `urllib.parse.urljoin(base, url)`. -/
def urljoin (base url : List Char) : List Char :=
  if base.isEmpty then url
  else if url.isEmpty then base
  else
    let b := urlparse base []
    let u := urlparse url b.scheme
    if !(u.scheme = b.scheme && uses_relative.contains (String.mk u.scheme)) then url
    else if uses_netloc.contains (String.mk u.scheme) && !u.netloc.isEmpty then
      urlunparse ⟨u.scheme, u.netloc, u.path, u.params, u.query, u.fragment⟩
    else
      let netloc := if uses_netloc.contains (String.mk u.scheme) then b.netloc else u.netloc
      if u.path.isEmpty && u.params.isEmpty then
        let query := if u.query.isEmpty then b.query else u.query
        urlunparse ⟨u.scheme, netloc, b.path, b.params, query, u.fragment⟩
      else
        let base_parts0 := lcSplitAll '/' b.path
        let base_parts :=
          if base_parts0.getLast? ≠ some [] then base_parts0.dropLast else base_parts0
        let segments :=
          if ['/'].isPrefixOf u.path then lcSplitAll '/' u.path
          else filterMiddle (base_parts ++ lcSplitAll '/' u.path)
        let resolved0 := resolveSegs [] segments
        let resolved :=
          if segments.getLast? = some ['.'] ∨ segments.getLast? = some ['.', '.'] then
            resolved0 ++ [[]]
          else resolved0
        let joined := lcJoinSep '/' resolved
        let path := if joined.isEmpty then ['/'] else joined
        urlunparse ⟨u.scheme, netloc, path, u.params, u.query, u.fragment⟩

/-- `urljoin` on `String`. -/
def urljoinStr (base url : String) : String :=
  String.mk (urljoin base.data url.data)

/-!
## The script's pipeline (`code/tools/prepare_wrangles.py`)
-/

/-- The designated URL-bearing keys of `normalize_urls_recursive`. -/
def URL_KEYS : List String := ["@id", "url", "contentUrl", "item", "sameAs"]

/-- `normalize_url(url, base_url)`: make relative URLs absolute.  Falsy
values give `None`; a dict contributes its `@id`; strings starting with
`"http"` are returned unchanged, strings starting with `"#"` are
appended to the base, any other string goes through `urljoin`; every
other value gives `None`. -/
def normalize_url (url : Json) (base_url : String) : Json :=
  if !pyTruthy url then .null
  else
    let url' : Json :=
      match url with
      | .obj fs => match getKey fs "@id" with
                   | some v => v
                   | none => .obj fs
      | u => u
    match url' with
    | .str s =>
        if pyStartsWith s "http" then .str s
        else if pyStartsWith s "#" then .str (base_url ++ s)
        else .str (urljoinStr base_url s)
    | _ => .null

mutual

/-- `normalize_urls_recursive(obj, base_url)` (pure rendering of the
in-place mutation): values under URL-bearing keys are replaced by
`normalize_url`; other dict/list values are walked recursively; scalars
are untouched. -/
def normalize_urls_recursive : Json → String → Json
  | .obj fs, base_url => .obj (normalize_urls_fields fs base_url)
  | .arr xs, base_url => .arr (normalize_urls_items xs base_url)
  | j, _ => j

/-- The dict branch of `normalize_urls_recursive`. -/
def normalize_urls_fields : List (String × Json) → String → List (String × Json)
  | [], _ => []
  | (k, v) :: rest, base_url =>
      (k, normalize_urls_entry k v base_url) :: normalize_urls_fields rest base_url

/-- One dict entry of `normalize_urls_recursive`: rewrite under a
URL-bearing key, recurse into dict/list values, keep scalars. -/
def normalize_urls_entry (k : String) (v : Json) (base_url : String) : Json :=
  if URL_KEYS.contains k then normalize_url v base_url
  else
    match v with
    | .obj fs => .obj (normalize_urls_fields fs base_url)
    | .arr xs => .arr (normalize_urls_items xs base_url)
    | s => s

/-- The list branch of `normalize_urls_recursive`. -/
def normalize_urls_items : List Json → String → List Json
  | [], _ => []
  | x :: rest, base_url =>
      (match x with
       | .obj fs => Json.obj (normalize_urls_fields fs base_url)
       | .arr xs => Json.arr (normalize_urls_items xs base_url)
       | s => s) :: normalize_urls_items rest base_url

end

/-- The `@type`/`type` compatibility step of
`create_comprehensive_record`: when exactly one of the two keys is
present, copy its value to the other; otherwise leave the record
alone. -/
def mirror_type_fields (record : PyDict) : PyDict :=
  match getKey record "@type", getKey record "type" with
  | some v, none => setKey record "type" v
  | none, some v => setKey record "@type" v
  | _, _ => record

/-- `create_comprehensive_record(item, source_url)`: copy the item, set
`_source_url` and `_extracted_at`, mirror a missing `@type`/`type`
alias from the one present, then rewrite URLs recursively. -/
def create_comprehensive_record (item : PyDict) (source_url : String) : PyDict :=
  normalize_urls_fields
    (mirror_type_fields
      (setKey (setKey item "_source_url" (.str source_url)) "_extracted_at" .null))
    source_url

/-- `record.get('@type', record.get('type'))`, the type value used by
the content filter. -/
def get_type_val (record : PyDict) : Json :=
  match getKey record "@type" with
  | some v => v
  | none => (getKey record "type").getD .null

/-- `a or b` (Python): the first operand if truthy, else the second. -/
def pyOr (a b : Json) : Json :=
  if pyTruthy a then a else b

/-- `create_unique_key_from_record(record)`: derive the dedup key
`f"{type_val}:{id_val}"`.  `none` models the `TypeError` CPython raises
when the type value is a list with a non-string element
(`'_'.join`). -/
def create_unique_key_from_record (record : PyDict) : Option String :=
  let type_val : Json :=
    match getKey record "@type" with
    | some v => v
    | none => (getKey record "type").getD (.str "Unknown")
  let type_str : Option String :=
    match type_val with
    | .arr xs => pyJoin "_" xs
    | v => some (pyStr v)
  let id_val0 : Json := (getKey record "@id").getD .null
  let id_val : Json :=
    if pyTruthy id_val0 then id_val0
    else
      pyOr (pyOr ((getKey record "url").getD .null) ((getKey record "name").getD .null))
        ((getKey record "headline").getD .null)
  type_str.map (fun ts => ts ++ ":" ++ pyStr id_val)

/-- The `content_types` allow-list of `should_include_record`. -/
def content_types : List String :=
  ["TechArticle", "Article", "WebPage", "HowTo", "ImageObject",
   "SoftwareSourceCode", "SoftwareApplication", "Organization",
   "CreativeWork", "Thing"]

/-- The `skip_types` list of `should_include_record`. -/
def skip_types : List String := ["BreadcrumbList", "ListItem"]

/-- The content-indicator fields of `should_include_record`. -/
def content_fields : List String :=
  ["name", "headline", "description", "text", "step", "contentUrl",
   "programmingLanguage", "codeSampleType"]

/-- Python `t == c` for a JSON value against a string constant. -/
def jsonIsStr (t : Json) (c : String) : Bool :=
  match t with
  | .str s => s = c
  | _ => false

/-- The `[type_val]` wrapping step of `should_include_record`. -/
def typeAsList (tv : Json) : List Json :=
  match tv with
  | .arr xs => xs
  | v => [v]

/-- `should_include_record(record)`. -/
def should_include_record (record : PyDict) : Bool :=
  let type_val := get_type_val record
  if !pyTruthy type_val then false
  else
    let tl := typeAsList type_val
    let has_content_type := tl.any (fun t => content_types.any (fun c => jsonIsStr t c))
    let has_skip_type := tl.any (fun t => skip_types.any (fun c => jsonIsStr t c))
    if has_skip_type && !has_content_type then false
    else content_fields.any (fun f => hasKey record f)

/-- The loop body of the `step` block: the truthy `step.get('text','')`
values of the dict entries of the step list, in order. -/
def step_texts_of (steps : List Json) : List Json :=
  steps.filterMap (fun st =>
    match st with
    | .obj fs =>
        let t := (getKey fs "text").getD (.str "")
        if pyTruthy t then some t else none
    | _ => none)

/-- The `step` block of `process_json_data_objects`: collect the truthy
`text` values of dict entries of a `step` list, then join with a space.
`none` models the `TypeError` of joining a non-string truthy value. -/
def enrich_step (record : PyDict) : Option PyDict :=
  match getKey record "step" with
  | some (.arr steps) =>
      let step_texts := step_texts_of steps
      if step_texts.isEmpty then some record
      else (pyJoin " " step_texts).map (fun s => setKey record "_step_content" (.str s))
  | _ => some record

/-- The condition guarding `_code_content`:
`record.get('@type') == 'SoftwareSourceCode' or 'SoftwareSourceCode' in
str(record.get('@type', []))`. -/
def sscCond (record : PyDict) : Bool :=
  (match getKey record "@type" with
   | some (.str s) => s = "SoftwareSourceCode"
   | _ => false)
  || lcContainsSub "SoftwareSourceCode".data (pyStr ((getKey record "@type").getD (.arr []))).data

/-- The `SoftwareSourceCode` block of `process_json_data_objects`:
when `sscCond` holds and `text` is truthy, store `text` with literal
`\n` sequences turned into newlines.  `none` models the
`AttributeError` of calling `.replace` on a truthy non-string. -/
def enrich_code (record : PyDict) : Option PyDict :=
  if sscCond record then
    let code_text := (getKey record "text").getD (.str "")
    if pyTruthy code_text then
      match code_text with
      | .str s =>
          some (setKey record "_code_content"
            (.str (String.mk (lcReplace "\\n".data "\n".data s.data))))
      | _ => none
    else some record
  else some record

/-- Both enrichment blocks, in source order. -/
def enrich_record (record : PyDict) : Option PyDict :=
  (enrich_step record).bind enrich_code

/-- `process_json_data_objects(data_objects, source_url)` with the
module-global `processed_items` set passed explicitly; returns the
yielded records and the final seen-key set.  A `none` from the key
computation or the enricher models an exception propagating out of the
generator: nothing further is yielded. -/
def process_json_data_objects :
    List Json → String → List String → List PyDict × List String
  | [], _, processed => ([], processed)
  | .obj fs :: rest, source_url, processed =>
      let record := create_comprehensive_record fs source_url
      if !should_include_record record then
        process_json_data_objects rest source_url processed
      else
        match create_unique_key_from_record record with
        | none => ([], processed)
        | some unique_key =>
            if processed.contains unique_key then
              process_json_data_objects rest source_url processed
            else
              match enrich_record record with
              | none => ([], unique_key :: processed)
              | some out =>
                  let r := process_json_data_objects rest source_url (unique_key :: processed)
                  (out :: r.1, r.2)
  | _ :: rest, source_url, processed =>
      process_json_data_objects rest source_url processed

mutual

/-- No URL-bearing key occurs anywhere inside this value — the
condition under which the URL rewriting pass leaves it untouched. -/
def noUrlKeys : Json → Bool
  | .obj fs => noUrlKeysFields fs
  | .arr xs => noUrlKeysItems xs
  | _ => true

def noUrlKeysFields : List (String × Json) → Bool
  | [] => true
  | (k, v) :: rest => !URL_KEYS.contains k && noUrlKeys v && noUrlKeysFields rest

def noUrlKeysItems : List Json → Bool
  | [] => true
  | x :: rest => noUrlKeys x && noUrlKeysItems rest

end

/-!
## Infrastructure lemmas
-/

mutual

theorem Json.beq_iff : ∀ a b : Json, Json.beq a b = true ↔ a = b
  | .null, .null => by simp [Json.beq]
  | .bool a, .bool b => by simp [Json.beq]
  | .num a, .num b => by simp [Json.beq]
  | .str a, .str b => by simp [Json.beq]
  | .arr xs, .arr ys => by simp [Json.beq, Json.beqList_iff xs ys]
  | .obj xs, .obj ys => by simp [Json.beq, Json.beqFields_iff xs ys]
  | .null, .bool _ | .null, .num _ | .null, .str _ | .null, .arr _ | .null, .obj _
  | .bool _, .null | .bool _, .num _ | .bool _, .str _ | .bool _, .arr _ | .bool _, .obj _
  | .num _, .null | .num _, .bool _ | .num _, .str _ | .num _, .arr _ | .num _, .obj _
  | .str _, .null | .str _, .bool _ | .str _, .num _ | .str _, .arr _ | .str _, .obj _
  | .arr _, .null | .arr _, .bool _ | .arr _, .num _ | .arr _, .str _ | .arr _, .obj _
  | .obj _, .null | .obj _, .bool _ | .obj _, .num _ | .obj _, .str _ | .obj _, .arr _ => by
      simp [Json.beq]

theorem Json.beqList_iff : ∀ xs ys : List Json, Json.beqList xs ys = true ↔ xs = ys
  | [], [] => by simp [Json.beqList]
  | x :: xs, y :: ys => by
      simp [Json.beqList, Json.beq_iff x y, Json.beqList_iff xs ys]
  | [], _ :: _ => by simp [Json.beqList]
  | _ :: _, [] => by simp [Json.beqList]

theorem Json.beqFields_iff :
    ∀ xs ys : List (String × Json), Json.beqFields xs ys = true ↔ xs = ys
  | [], [] => by simp [Json.beqFields]
  | (k, v) :: xs, (k', v') :: ys => by
      simp [Json.beqFields, Json.beq_iff v v', Json.beqFields_iff xs ys, and_assoc]
  | [], _ :: _ => by simp [Json.beqFields]
  | _ :: _, [] => by simp [Json.beqFields]

end

instance : DecidableEq Json := fun a b =>
  decidable_of_iff (Json.beq a b = true) (Json.beq_iff a b)

@[simp] theorem getKey_nil (k : String) : getKey [] k = none := rfl

@[simp] theorem getKey_cons (k' : String) (v : Json) (rest : PyDict) (k : String) :
    getKey ((k', v) :: rest) k = if k' = k then some v else getKey rest k := rfl

theorem getKey_setKey_self (d : PyDict) (k : String) (v : Json) :
    getKey (setKey d k v) k = some v := by
  induction d with
  | nil => simp [setKey]
  | cons hd tl ih =>
      obtain ⟨k', v'⟩ := hd
      by_cases h : k' = k <;> simp [setKey, h, ih]

theorem getKey_setKey_ne (d : PyDict) (k k' : String) (v : Json) (h : k ≠ k') :
    getKey (setKey d k v) k' = getKey d k' := by
  induction d with
  | nil => simp [setKey, h]
  | cons hd tl ih =>
      obtain ⟨k₀, v₀⟩ := hd
      by_cases h₀ : k₀ = k
      · subst h₀; simp [setKey, h]
      · simp [setKey, h₀, ih]

/-- Looking a key up after the URL-rewriting pass gives the
entry-transform of the original value. -/
theorem getKey_normalize_urls_fields (fs : PyDict) (b : String) (k : String) :
    getKey (normalize_urls_fields fs b) k
      = (getKey fs k).map (fun v => normalize_urls_entry k v b) := by
  induction fs with
  | nil => simp [normalize_urls_fields]
  | cons hd tl ih =>
      obtain ⟨k', v⟩ := hd
      by_cases h : k' = k
      · subst h; simp [normalize_urls_fields]
      · simp [normalize_urls_fields, h, ih]

/-- The two metadata assignments of `create_comprehensive_record` do
not touch any other key. -/
theorem getKey_meta (fs : PyDict) (src : String) (k : String)
    (h1 : k ≠ "_source_url") (h2 : k ≠ "_extracted_at") :
    getKey (setKey (setKey fs "_source_url" (.str src)) "_extracted_at" .null) k
      = getKey fs k := by
  rw [getKey_setKey_ne _ _ _ _ (fun h => h2 h.symm),
    getKey_setKey_ne _ _ _ _ (fun h => h1 h.symm)]

/-- `mirror_type_fields` never changes a key that is present. -/
theorem getKey_mirror_of_present (d : PyDict) (k : String) (v : Json)
    (h : getKey d k = some v) :
    getKey (mirror_type_fields d) k = some v := by
  unfold mirror_type_fields
  cases h1 : getKey d "@type" with
  | none =>
      cases h2 : getKey d "type" with
      | none => simpa [h1, h2] using h
      | some w =>
          by_cases hk : k = "@type"
          · subst hk; rw [h1] at h; exact absurd h (by simp)
          · simpa [h1, h2, getKey_setKey_ne _ _ _ _ (fun h' => hk h'.symm)] using h
  | some w =>
      cases h2 : getKey d "type" with
      | none =>
          by_cases hk : k = "type"
          · subst hk; rw [h2] at h; exact absurd h (by simp)
          · simpa [h1, h2, getKey_setKey_ne _ _ _ _ (fun h' => hk h'.symm)] using h
      | some w' => simpa [h1, h2] using h

/-- `mirror_type_fields` does not change keys other than `@type` and
`type`. -/
theorem getKey_mirror_of_ne (d : PyDict) (k : String)
    (h1 : k ≠ "@type") (h2 : k ≠ "type") :
    getKey (mirror_type_fields d) k = getKey d k := by
  unfold mirror_type_fields
  cases ha : getKey d "@type" with
  | none =>
      cases hb : getKey d "type" with
      | none => simp
      | some w => simp [getKey_setKey_ne _ _ _ _ (fun h => h1 h.symm)]
  | some w =>
      cases hb : getKey d "type" with
      | none => simp [getKey_setKey_ne _ _ _ _ (fun h => h2 h.symm)]
      | some w' => simp

/-- The entry transform is the same for the two type-alias keys (both
are outside the URL-bearing set). -/
theorem normalize_urls_entry_type_alias (v : Json) (b : String) :
    normalize_urls_entry "@type" v b = normalize_urls_entry "type" v b := by
  cases v <;> rfl

mutual

/-- A value without URL-bearing keys anywhere inside is untouched by
the URL-rewriting walk. -/
theorem normalize_urls_recursive_of_noUrlKeys :
    ∀ (v : Json) (b : String), noUrlKeys v = true → normalize_urls_recursive v b = v
  | .obj fs, b, h => by
      simp only [normalize_urls_recursive]
      exact congrArg Json.obj
        (normalize_urls_fields_of_noUrlKeys fs b (by simpa [noUrlKeys] using h))
  | .arr xs, b, h => by
      simp only [normalize_urls_recursive]
      exact congrArg Json.arr
        (normalize_urls_items_of_noUrlKeys xs b (by simpa [noUrlKeys] using h))
  | .null, _, _ => rfl
  | .bool _, _, _ => rfl
  | .num _, _, _ => rfl
  | .str _, _, _ => rfl

theorem normalize_urls_fields_of_noUrlKeys :
    ∀ (fs : PyDict) (b : String), noUrlKeysFields fs = true →
      normalize_urls_fields fs b = fs
  | [], _, _ => rfl
  | (k, v) :: rest, b, h => by
      have h' : (!URL_KEYS.contains k && noUrlKeys v && noUrlKeysFields rest) = true := by
        simpa [noUrlKeysFields] using h
      simp only [Bool.and_eq_true, Bool.not_eq_true'] at h'
      obtain ⟨⟨hk, hv⟩, hrest⟩ := h'
      simp only [normalize_urls_fields]
      rw [normalize_urls_entry_of_noUrlKeys k v b hk hv,
        normalize_urls_fields_of_noUrlKeys rest b hrest]

theorem normalize_urls_entry_of_noUrlKeys :
    ∀ (k : String) (v : Json) (b : String), URL_KEYS.contains k = false →
      noUrlKeys v = true → normalize_urls_entry k v b = v
  | k, .obj fs, b, hk, hv => by
      simp only [normalize_urls_entry, hk, Bool.false_eq_true, if_false]
      exact congrArg Json.obj
        (normalize_urls_fields_of_noUrlKeys fs b (by simpa [noUrlKeys] using hv))
  | k, .arr xs, b, hk, hv => by
      simp only [normalize_urls_entry, hk, Bool.false_eq_true, if_false]
      exact congrArg Json.arr
        (normalize_urls_items_of_noUrlKeys xs b (by simpa [noUrlKeys] using hv))
  | k, .null, b, hk, _ => by
      simp only [normalize_urls_entry, hk, Bool.false_eq_true, if_false]
  | k, .bool _, b, hk, _ => by
      simp only [normalize_urls_entry, hk, Bool.false_eq_true, if_false]
  | k, .num _, b, hk, _ => by
      simp only [normalize_urls_entry, hk, Bool.false_eq_true, if_false]
  | k, .str _, b, hk, _ => by
      simp only [normalize_urls_entry, hk, Bool.false_eq_true, if_false]

theorem normalize_urls_items_of_noUrlKeys :
    ∀ (xs : List Json) (b : String), noUrlKeysItems xs = true →
      normalize_urls_items xs b = xs
  | [], _, _ => rfl
  | x :: rest, b, h => by
      have h' : (noUrlKeys x && noUrlKeysItems rest) = true := by
        simpa [noUrlKeysItems] using h
      simp only [Bool.and_eq_true] at h'
      obtain ⟨hx, hrest⟩ := h'
      cases x with
      | obj fs =>
          rw [normalize_urls_items, normalize_urls_items_of_noUrlKeys rest b hrest,
            normalize_urls_fields_of_noUrlKeys fs b (by simpa [noUrlKeys] using hx)]
      | arr ys =>
          rw [normalize_urls_items, normalize_urls_items_of_noUrlKeys rest b hrest,
            normalize_urls_items_of_noUrlKeys ys b (by simpa [noUrlKeys] using hx)]
      | null =>
          rw [normalize_urls_items, normalize_urls_items_of_noUrlKeys rest b hrest]
          all_goals exact fun _ hcontra => Json.noConfusion hcontra
      | bool _ =>
          rw [normalize_urls_items, normalize_urls_items_of_noUrlKeys rest b hrest]
          all_goals exact fun _ hcontra => Json.noConfusion hcontra
      | num _ =>
          rw [normalize_urls_items, normalize_urls_items_of_noUrlKeys rest b hrest]
          all_goals exact fun _ hcontra => Json.noConfusion hcontra
      | str _ =>
          rw [normalize_urls_items, normalize_urls_items_of_noUrlKeys rest b hrest]
          all_goals exact fun _ hcontra => Json.noConfusion hcontra

end

/-- `enrich_step` changes no key other than `_step_content`. -/
theorem getKey_enrich_step (r r' : PyDict) (k : String)
    (hk : k ≠ "_step_content") (h : enrich_step r = some r') :
    getKey r' k = getKey r k := by
  unfold enrich_step at h
  cases hs : getKey r "step" with
  | none =>
      simp only [hs, Option.some.injEq] at h
      subst h; rfl
  | some v =>
      cases v with
      | arr steps =>
          simp only [hs] at h
          by_cases he : (step_texts_of steps).isEmpty
          · rw [if_pos he, Option.some.injEq] at h
            subst h; rfl
          · rw [if_neg he] at h
            cases hj : pyJoin " " (step_texts_of steps) with
            | none => rw [hj] at h; cases h
            | some s =>
                rw [hj] at h
                simp only [Option.map_some', Option.some.injEq] at h
                subst h
                exact getKey_setKey_ne _ _ _ _ (fun h' => hk h'.symm)
      | null => simp only [hs, Option.some.injEq] at h; subst h; rfl
      | bool _ => simp only [hs, Option.some.injEq] at h; subst h; rfl
      | num _ => simp only [hs, Option.some.injEq] at h; subst h; rfl
      | str _ => simp only [hs, Option.some.injEq] at h; subst h; rfl
      | obj _ => simp only [hs, Option.some.injEq] at h; subst h; rfl

/-- `enrich_code` changes no key other than `_code_content`. -/
theorem getKey_enrich_code (r r' : PyDict) (k : String)
    (hk : k ≠ "_code_content") (h : enrich_code r = some r') :
    getKey r' k = getKey r k := by
  unfold enrich_code at h
  by_cases hc : sscCond r
  · rw [if_pos hc] at h
    by_cases ht : pyTruthy ((getKey r "text").getD (.str ""))
    · rw [if_pos ht] at h
      cases hg : (getKey r "text").getD (.str "") with
      | str s =>
          rw [hg] at h
          simp only [Option.some.injEq] at h
          subst h
          exact getKey_setKey_ne _ _ _ _ (fun h' => hk h'.symm)
      | null => rw [hg] at h; cases h
      | bool _ => rw [hg] at h; cases h
      | num _ => rw [hg] at h; cases h
      | arr _ => rw [hg] at h; cases h
      | obj _ => rw [hg] at h; cases h
    · rw [if_neg ht, Option.some.injEq] at h
      subst h; rfl
  · rw [if_neg hc, Option.some.injEq] at h
    subst h; rfl

/-- `enrich_record` changes no key other than the two derived
fields. -/
theorem getKey_enrich_record (r r' : PyDict) (k : String)
    (h1 : k ≠ "_step_content") (h2 : k ≠ "_code_content")
    (h : enrich_record r = some r') :
    getKey r' k = getKey r k := by
  unfold enrich_record at h
  cases hs : enrich_step r with
  | none => rw [hs] at h; cases h
  | some m =>
      rw [hs] at h
      simp only [Option.some_bind] at h
      rw [getKey_enrich_code m r' k h2 h, getKey_enrich_step r m k h1 hs]

/-- A dict candidate that passes the filter and whose key is unseen is
emitted (followed by the rest of the stream, with its key recorded). -/
theorem process_cons_included (fs : PyDict) (rest : List Json) (src : String)
    (processed : List String) (kk : String) (out : PyDict)
    (h1 : should_include_record (create_comprehensive_record fs src) = true)
    (h2 : create_unique_key_from_record (create_comprehensive_record fs src) = some kk)
    (h3 : processed.contains kk = false)
    (h4 : enrich_record (create_comprehensive_record fs src) = some out) :
    process_json_data_objects (.obj fs :: rest) src processed
      = (out :: (process_json_data_objects rest src (kk :: processed)).1,
         (process_json_data_objects rest src (kk :: processed)).2) := by
  have h3' : kk ∉ processed := by simpa using h3
  simp [process_json_data_objects, h1, h2, h3', h4]

/-- A dict candidate that passes the filter but whose key was already
seen is dropped. -/
theorem process_cons_dup (fs : PyDict) (rest : List Json) (src : String)
    (processed : List String) (kk : String)
    (h1 : should_include_record (create_comprehensive_record fs src) = true)
    (h2 : create_unique_key_from_record (create_comprehensive_record fs src) = some kk)
    (h3 : processed.contains kk = true) :
    process_json_data_objects (.obj fs :: rest) src processed
      = process_json_data_objects rest src processed := by
  have h3' : kk ∈ processed := by simpa using h3
  simp [process_json_data_objects, h1, h2, h3']

/-- A dict candidate rejected by the filter is dropped. -/
theorem process_cons_not_included (fs : PyDict) (rest : List Json) (src : String)
    (processed : List String)
    (h1 : should_include_record (create_comprehensive_record fs src) = false) :
    process_json_data_objects (.obj fs :: rest) src processed
      = process_json_data_objects rest src processed := by
  simp [process_json_data_objects, h1]

/-!
## Claim theorems
-/

/-- C1, counterexample: a candidate already carrying `@type = "A"` and
`type = "B"` keeps the two different values after normalization — the
claim's "both present and equal ... including when the candidate
already carried both keys with different values" is false on the code
(the `if`/`elif` in `create_comprehensive_record` only copies when
exactly one key is present). -/
theorem C1_counterexample :
    getKey (create_comprehensive_record
      [("@type", Json.str "A"), ("type", Json.str "B")] "https://s/p") "@type"
      = some (Json.str "A")
  ∧ getKey (create_comprehensive_record
      [("@type", Json.str "A"), ("type", Json.str "B")] "https://s/p") "type"
      = some (Json.str "B")
  ∧ Json.str "A" ≠ Json.str "B" := by decide

/-- C1 (amended): after `create_comprehensive_record`, both the primary
(`@type`) and aliased (`type`) keys are present whenever at least one
was present in the candidate, and they are equal whenever the candidate
did not already carry both keys; a candidate carrying both keeps both
values as they were. -/
theorem C1_type_alias_mirroring (fs : PyDict) (src : String)
    (h : hasKey fs "@type" = true ∨ hasKey fs "type" = true) :
    (hasKey (create_comprehensive_record fs src) "@type" = true
      ∧ hasKey (create_comprehensive_record fs src) "type" = true)
  ∧ (¬(hasKey fs "@type" = true ∧ hasKey fs "type" = true) →
      getKey (create_comprehensive_record fs src) "@type"
        = getKey (create_comprehensive_record fs src) "type") := by
  have hc : ∀ k, getKey (create_comprehensive_record fs src) k
      = (getKey (mirror_type_fields
          (setKey (setKey fs "_source_url" (.str src)) "_extracted_at" .null)) k).map
            (fun v => normalize_urls_entry k v src) := by
    intro k
    unfold create_comprehensive_record
    exact getKey_normalize_urls_fields _ _ _
  have hd1 : getKey (setKey (setKey fs "_source_url" (.str src)) "_extracted_at" .null) "@type"
      = getKey fs "@type" := getKey_meta fs src _ (by decide) (by decide)
  have hd2 : getKey (setKey (setKey fs "_source_url" (.str src)) "_extracted_at" .null) "type"
      = getKey fs "type" := getKey_meta fs src _ (by decide) (by decide)
  cases ha : getKey fs "@type" with
  | some v =>
      cases hb : getKey fs "type" with
      | none =>
          have hm : mirror_type_fields
              (setKey (setKey fs "_source_url" (.str src)) "_extracted_at" .null)
              = setKey (setKey (setKey fs "_source_url" (.str src)) "_extracted_at" .null)
                  "type" v := by
            unfold mirror_type_fields
            rw [hd1, hd2, ha, hb]
          refine ⟨⟨?_, ?_⟩, ?_⟩
          · rw [hasKey, hc, hm, getKey_setKey_ne _ _ _ _ (by decide), hd1, ha]
            rfl
          · rw [hasKey, hc, hm, getKey_setKey_self]
            rfl
          · intro _
            rw [hc, hc, hm, getKey_setKey_self,
              getKey_setKey_ne _ _ _ _ (by decide), hd1, ha]
            simp [normalize_urls_entry_type_alias]
      | some w =>
          have hm : mirror_type_fields
              (setKey (setKey fs "_source_url" (.str src)) "_extracted_at" .null)
              = setKey (setKey fs "_source_url" (.str src)) "_extracted_at" .null := by
            unfold mirror_type_fields
            rw [hd1, hd2, ha, hb]
          refine ⟨⟨?_, ?_⟩, ?_⟩
          · rw [hasKey, hc, hm, hd1, ha]; rfl
          · rw [hasKey, hc, hm, hd2, hb]; rfl
          · intro hcontra
            exact absurd ⟨by rw [hasKey, ha]; rfl, by rw [hasKey, hb]; rfl⟩ hcontra
  | none =>
      cases hb : getKey fs "type" with
      | some w =>
          have hm : mirror_type_fields
              (setKey (setKey fs "_source_url" (.str src)) "_extracted_at" .null)
              = setKey (setKey (setKey fs "_source_url" (.str src)) "_extracted_at" .null)
                  "@type" w := by
            unfold mirror_type_fields
            rw [hd1, hd2, ha, hb]
          refine ⟨⟨?_, ?_⟩, ?_⟩
          · rw [hasKey, hc, hm, getKey_setKey_self]
            rfl
          · rw [hasKey, hc, hm, getKey_setKey_ne _ _ _ _ (by decide), hd2, hb]
            rfl
          · intro _
            rw [hc, hc, hm, getKey_setKey_self,
              getKey_setKey_ne _ _ _ _ (by decide), hd2, hb]
            simp [normalize_urls_entry_type_alias]
      | none =>
          rcases h with h | h
          · rw [hasKey, ha] at h; cases h
          · rw [hasKey, hb] at h; cases h

/-- Witness for C1 at a concrete candidate carrying only `@type`. -/
theorem C1_witness :
    (hasKey [("@type", Json.str "Article")] "@type" = true
      ∨ hasKey [("@type", Json.str "Article")] "type" = true)
  ∧ ((hasKey (create_comprehensive_record [("@type", Json.str "Article")] "https://s/p") "@type" = true
        ∧ hasKey (create_comprehensive_record [("@type", Json.str "Article")] "https://s/p") "type" = true)
      ∧ (¬(hasKey [("@type", Json.str "Article")] "@type" = true
            ∧ hasKey [("@type", Json.str "Article")] "type" = true) →
          getKey (create_comprehensive_record [("@type", Json.str "Article")] "https://s/p") "@type"
            = getKey (create_comprehensive_record [("@type", Json.str "Article")] "https://s/p") "type")) :=
  ⟨Or.inl (by decide), C1_type_alias_mirroring _ _ (Or.inl (by decide))⟩

/-- C2, counterexample: a list of URL strings under the URL-bearing key
`sameAs` is not rewritten element-wise — `normalize_url` maps the whole
list to `None`, so the key ends up `null`. -/
theorem C2_counterexample :
    getKey (create_comprehensive_record
      [("@type", Json.str "Article"), ("name", Json.str "n"),
       ("sameAs", Json.arr [Json.str "https://x"])] "https://s/p") "sameAs"
      = some Json.null
  ∧ Json.null ≠ Json.arr [Json.str "https://x"] := by decide

/-- C2 (amended): a value directly under a URL-bearing key is replaced
by `normalize_url` of it; a sequence value is thereby replaced by
`null` (not rewritten element-wise); and a string that starts with
neither `"http"` nor `"#"` — only such strings — is resolved against
the source URL with `urljoin`. -/
theorem C2_url_rewriting :
    (∀ (fields : PyDict) (b k : String) (v : Json),
        URL_KEYS.contains k = true → getKey fields k = some v →
        getKey (normalize_urls_fields fields b) k = some (normalize_url v b))
  ∧ (∀ (xs : List Json) (b : String), normalize_url (.arr xs) b = .null)
  ∧ (∀ (s b : String),
        pyTruthy (.str s) = true → pyStartsWith s "http" = false →
        pyStartsWith s "#" = false →
        normalize_url (.str s) b = .str (urljoinStr b s)) := by
  refine ⟨?_, ?_, ?_⟩
  · intro fields b k v hk hv
    rw [getKey_normalize_urls_fields, hv]
    unfold normalize_urls_entry
    rw [hk]
    simp
  · intro xs b
    cases xs <;> rfl
  · intro s b ht h1 h2
    simp [normalize_url, ht, h1, h2]

/-- Witness for C2 at a concrete record: a relative path under `url`
is resolved against the source URL. -/
theorem C2_witness :
    URL_KEYS.contains "url" = true
  ∧ getKey [("url", Json.str "page2")] "url" = some (Json.str "page2")
  ∧ getKey (normalize_urls_fields [("url", Json.str "page2")] "https://s/dir/page") "url"
      = some (normalize_url (Json.str "page2") "https://s/dir/page")
  ∧ normalize_url (Json.str "page2") "https://s/dir/page" = Json.str "https://s/dir/page2" :=
  ⟨by decide, by decide,
    C2_url_rewriting.1 [("url", Json.str "page2")] "https://s/dir/page" "url"
      (Json.str "page2") (by decide) (by decide),
    by decide⟩

/-- C3, counterexample: `"HTTP://example.org/p"` is an absolute URL
(scheme present), but `normalize_url` rewrites it — the `startswith`
test is case-sensitive, so the string falls through to `urljoin`,
which lowercases the scheme. -/
theorem C3_counterexample :
    normalize_url (Json.str "HTTP://example.org/p") "http://a/b"
      = Json.str "http://example.org/p"
  ∧ ("http://example.org/p" : String) ≠ "HTTP://example.org/p" := by decide

/-- C3 (amended): `normalize_url` returns unchanged every URL string
that starts with the four characters `"http"` (so every lowercase
`http`/`https` absolute URL); other scheme-bearing strings go through
`urljoin` and may be rewritten.  A fragment reference (leading `"#"`)
yields the base URL with the fragment appended. -/
theorem C3_normalize_url_stability :
    ∀ (s base : String),
      (pyStartsWith s "http" = true → normalize_url (.str s) base = .str s)
    ∧ (pyStartsWith s "#" = true → normalize_url (.str s) base = .str (base ++ s)) := by
  intro s base
  constructor
  · intro h
    have hne : pyTruthy (.str s) = true := by
      cases hd : s.data with
      | nil =>
          rw [pyStartsWith, hd] at h
          exact absurd h (by decide)
      | cons c t =>
          simp only [pyTruthy, ne_eq, decide_eq_true_eq]
          intro he
          rw [he] at hd
          simp at hd
    simp [normalize_url, hne, h]
  · intro h
    have key : ("http".data.isPrefixOf s.data = false) ∧ s ≠ "" := by
      have h' : "#".data.isPrefixOf s.data = true := h
      cases hd : s.data with
      | nil => rw [hd] at h'; exact absurd h' (by decide)
      | cons c t =>
          rw [hd] at h'
          have hc : c = '#' := by
            simp only [show "#".data = ['#'] from rfl, List.isPrefixOf, Bool.and_eq_true,
              beq_iff_eq] at h'
            exact h'.1.symm
          subst hc
          constructor
          · have hch : (('h' : Char) == '#') = false := by decide
            simp [show "http".data = ['h', 't', 't', 'p'] from rfl, List.isPrefixOf, hch]
          · intro he
            rw [he] at hd
            simp at hd
    have hne : pyTruthy (.str s) = true := by
      simp only [pyTruthy, ne_eq, decide_eq_true_eq]
      exact key.2
    have hh : pyStartsWith s "http" = false := key.1
    simp [normalize_url, hne, hh, h]

/-- Witness for C3: an absolute `https` URL is unchanged, and the
claim's own fragment example resolves as stated. -/
theorem C3_witness :
    pyStartsWith "https://abs/x" "http" = true
  ∧ normalize_url (Json.str "https://abs/x") "https://site/page" = Json.str "https://abs/x"
  ∧ pyStartsWith "#section1" "#" = true
  ∧ normalize_url (Json.str "#section1") "https://site/page"
      = Json.str "https://site/page#section1" := by
  refine ⟨by decide,
    (C3_normalize_url_stability "https://abs/x" "https://site/page").1 (by decide),
    by decide, ?_⟩
  have h := (C3_normalize_url_stability "#section1" "https://site/page").2 (by decide)
  exact h.trans (by decide)

/-- C4, counterexample: a candidate field named `_source_url` — an
underscore-named field that is not a URL-bearing key — does not appear
unchanged in the output record: `create_comprehensive_record`
overwrites it with the source URL. -/
theorem C4_counterexample :
    ((process_json_data_objects
        [Json.obj [("@type", Json.str "Article"), ("name", Json.str "n"),
          ("_source_url", Json.str "orig")]] "https://s/p" []).1.map
      (fun r => getKey r "_source_url")
      = [some (Json.str "https://s/p")]
    ∧ Json.str "https://s/p" ≠ Json.str "orig")
  ∧ (getKey (create_comprehensive_record
        [("@type", Json.str "Article"), ("name", Json.str "n"),
         ("author", Json.obj [("url", Json.str "page2")])] "https://s/dir/page") "author"
        = some (Json.obj [("url", Json.str "https://s/dir/page2")])
    ∧ Json.obj [("url", Json.str "https://s/dir/page2")]
        ≠ Json.obj [("url", Json.str "page2")]) := by decide

/-- C4 (amended): a top-level candidate field whose key is neither a
URL-bearing key nor one of the four reserved fields
(`_source_url`, `_extracted_at`, `_step_content`, `_code_content`),
and whose value contains no URL-bearing key at any nesting depth,
appears unchanged in the emitted output record. -/
theorem C4_round_trip (fs : PyDict) (src : String) (processed : List String)
    (k : String) (v : Json) (kk : String) (out : PyDict)
    (hk0 : URL_KEYS.contains k = false)
    (hk1 : k ≠ "_source_url") (hk2 : k ≠ "_extracted_at")
    (hk3 : k ≠ "_step_content") (hk4 : k ≠ "_code_content")
    (hval : getKey fs k = some v)
    (hnou : noUrlKeys v = true)
    (h1 : should_include_record (create_comprehensive_record fs src) = true)
    (h2 : create_unique_key_from_record (create_comprehensive_record fs src) = some kk)
    (h3 : processed.contains kk = false)
    (h4 : enrich_record (create_comprehensive_record fs src) = some out) :
    (process_json_data_objects [.obj fs] src processed).1 = [out]
  ∧ getKey out k = some v := by
  constructor
  · rw [process_cons_included fs [] src processed kk out h1 h2 h3 h4]
    rfl
  · have hccr : getKey (create_comprehensive_record fs src) k = some v := by
      unfold create_comprehensive_record
      rw [getKey_normalize_urls_fields,
        getKey_mirror_of_present _ _ _ (by rw [getKey_meta fs src k hk1 hk2]; exact hval)]
      simp [normalize_urls_entry_of_noUrlKeys k v src hk0 hnou]
    rw [getKey_enrich_record _ _ _ hk3 hk4 h4, hccr]

/-- Witness for C4: an untouched `headline` field survives the whole
pipeline at a concrete record. -/
theorem C4_witness :
    getKey [("@type", Json.str "Article"), ("name", Json.str "n"),
        ("headline", Json.str "H")] "headline" = some (Json.str "H")
  ∧ ((process_json_data_objects
        [Json.obj [("@type", Json.str "Article"), ("name", Json.str "n"),
          ("headline", Json.str "H")]] "https://s/p" []).1
      = [[("@type", Json.str "Article"), ("name", Json.str "n"),
          ("headline", Json.str "H"), ("_source_url", Json.str "https://s/p"),
          ("_extracted_at", Json.null), ("type", Json.str "Article")]]
    ∧ getKey [("@type", Json.str "Article"), ("name", Json.str "n"),
        ("headline", Json.str "H"), ("_source_url", Json.str "https://s/p"),
        ("_extracted_at", Json.null), ("type", Json.str "Article")] "headline"
        = some (Json.str "H")) :=
  ⟨by decide,
    C4_round_trip
      [("@type", Json.str "Article"), ("name", Json.str "n"), ("headline", Json.str "H")]
      "https://s/p" [] "headline" (Json.str "H") "Article:n"
      [("@type", Json.str "Article"), ("name", Json.str "n"),
       ("headline", Json.str "H"), ("_source_url", Json.str "https://s/p"),
       ("_extracted_at", Json.null), ("type", Json.str "Article")]
      (by decide) (by decide) (by decide) (by decide) (by decide) (by decide) (by decide)
      (by decide) (by decide) (by decide) (by decide)⟩

/-- C5 (confirmed): two filter-passing candidates that map to the same
unseen identity key yield exactly one output record — the first,
enriched; and more generally a filter-passing candidate whose key is
unseen is always emitted, so the duplicate check is the only
suppression after the content filter. -/
theorem C5_dedup_idempotent :
    (∀ (fs1 fs2 : PyDict) (src : String) (processed : List String)
        (kk : String) (out1 : PyDict),
        should_include_record (create_comprehensive_record fs1 src) = true →
        should_include_record (create_comprehensive_record fs2 src) = true →
        create_unique_key_from_record (create_comprehensive_record fs1 src) = some kk →
        create_unique_key_from_record (create_comprehensive_record fs2 src) = some kk →
        processed.contains kk = false →
        enrich_record (create_comprehensive_record fs1 src) = some out1 →
        (process_json_data_objects [.obj fs1, .obj fs2] src processed).1 = [out1])
  ∧ (∀ (fs : PyDict) (rest : List Json) (src : String) (processed : List String)
        (kk : String) (out : PyDict),
        should_include_record (create_comprehensive_record fs src) = true →
        create_unique_key_from_record (create_comprehensive_record fs src) = some kk →
        processed.contains kk = false →
        enrich_record (create_comprehensive_record fs src) = some out →
        process_json_data_objects (.obj fs :: rest) src processed
          = (out :: (process_json_data_objects rest src (kk :: processed)).1,
             (process_json_data_objects rest src (kk :: processed)).2)) := by
  constructor
  · intro fs1 fs2 src processed kk out1 hf1 hf2 hk1 hk2 hseen hen1
    rw [process_cons_included fs1 [.obj fs2] src processed kk out1 hf1 hk1 hseen hen1,
      process_cons_dup fs2 [] src (kk :: processed) kk hf2 hk2 (by simp)]
    rfl
  · intro fs rest src processed kk out hf hk hseen hen
    exact process_cons_included fs rest src processed kk out hf hk hseen hen

/-- Witness for C5: two `Article`/`Foo` candidates differing only in
their description collapse to one output record. -/
theorem C5_witness :
    should_include_record (create_comprehensive_record
      [("@type", Json.str "Article"), ("name", Json.str "Foo"),
       ("description", Json.str "d1")] "https://s/p") = true
  ∧ create_unique_key_from_record (create_comprehensive_record
      [("@type", Json.str "Article"), ("name", Json.str "Foo"),
       ("description", Json.str "d2")] "https://s/p") = some "Article:Foo"
  ∧ (process_json_data_objects
      [Json.obj [("@type", Json.str "Article"), ("name", Json.str "Foo"),
        ("description", Json.str "d1")],
       Json.obj [("@type", Json.str "Article"), ("name", Json.str "Foo"),
        ("description", Json.str "d2")]] "https://s/p" []).1
      = [[("@type", Json.str "Article"), ("name", Json.str "Foo"),
          ("description", Json.str "d1"), ("_source_url", Json.str "https://s/p"),
          ("_extracted_at", Json.null), ("type", Json.str "Article")]] :=
  ⟨by decide, by decide,
    C5_dedup_idempotent.1
      [("@type", Json.str "Article"), ("name", Json.str "Foo"),
       ("description", Json.str "d1")]
      [("@type", Json.str "Article"), ("name", Json.str "Foo"),
       ("description", Json.str "d2")]
      "https://s/p" [] "Article:Foo"
      [("@type", Json.str "Article"), ("name", Json.str "Foo"),
       ("description", Json.str "d1"), ("_source_url", Json.str "https://s/p"),
       ("_extracted_at", Json.null), ("type", Json.str "Article")]
      (by decide) (by decide) (by decide) (by decide) (by decide) (by decide)⟩

/-- C6, counterexample: a record whose only type is the single string
`"MySoftwareSourceCode"` — whose primary type does not equal
`SoftwareSourceCode` and which has no type collection at all — still
gets `_code_content`: the guard tests substring containment in
`str(record.get('@type', []))`, not equality or membership. -/
theorem C6_counterexample :
    enrich_record [("@type", Json.str "MySoftwareSourceCode"), ("text", Json.str "a")]
      = some [("@type", Json.str "MySoftwareSourceCode"), ("text", Json.str "a"),
              ("_code_content", Json.str "a")]
  ∧ ("MySoftwareSourceCode" : String) ≠ "SoftwareSourceCode" := by decide

/-- C6 (amended): `_code_content` is added exactly when `sscCond`
holds — primary type equal to `SoftwareSourceCode`, or the substring
`SoftwareSourceCode` occurring in the Python string rendering of the
`@type` value — and a truthy `text` is present; its value is `text`
with literal `\n` sequences turned into newlines.  Otherwise the
record passes through unchanged. -/
theorem C6_code_content (r : PyDict) :
    (sscCond r = false → enrich_code r = some r)
  ∧ (∀ s : String, sscCond r = true → getKey r "text" = some (.str s) → s ≠ "" →
      enrich_code r = some (setKey r "_code_content"
        (.str (String.mk (lcReplace "\\n".data "\n".data s.data)))))
  ∧ (sscCond r = true → pyTruthy ((getKey r "text").getD (.str "")) = false →
      enrich_code r = some r) := by
  refine ⟨?_, ?_, ?_⟩
  · intro h
    simp [enrich_code, h]
  · intro s h htext hs
    have ht : pyTruthy (Json.str s) = true := by
      simp [pyTruthy, hs]
    simp [enrich_code, h, htext, ht]
  · intro h ht
    simp [enrich_code, h, ht]

/-- Witness for C6 at the spec's own scenario record. -/
theorem C6_witness :
    sscCond [("@type", Json.str "SoftwareSourceCode"),
      ("text", Json.str "print(1)\\nprint(2)")] = true
  ∧ enrich_code [("@type", Json.str "SoftwareSourceCode"),
      ("text", Json.str "print(1)\\nprint(2)")]
      = some [("@type", Json.str "SoftwareSourceCode"),
          ("text", Json.str "print(1)\\nprint(2)"),
          ("_code_content", Json.str "print(1)\nprint(2)")] := by
  refine ⟨by decide, ?_⟩
  have h := (C6_code_content [("@type", Json.str "SoftwareSourceCode"),
      ("text", Json.str "print(1)\\nprint(2)")]).2.1
    "print(1)\\nprint(2)" (by decide) (by decide) (by decide)
  exact h.trans (by decide)

/-- C7 (confirmed): a record with neither `@type` nor `type` is
rejected by the content filter, and such a candidate contributes
nothing to the processed output. -/
theorem C7_no_type_rejected :
    (∀ r : PyDict, getKey r "@type" = none → getKey r "type" = none →
        should_include_record r = false)
  ∧ (∀ (fs : PyDict) (rest : List Json) (src : String) (processed : List String),
        getKey fs "@type" = none → getKey fs "type" = none →
        process_json_data_objects (.obj fs :: rest) src processed
          = process_json_data_objects rest src processed) := by
  have hA : ∀ r : PyDict, getKey r "@type" = none → getKey r "type" = none →
      should_include_record r = false := by
    intro r h1 h2
    simp [should_include_record, get_type_val, h1, h2, pyTruthy]
  refine ⟨hA, ?_⟩
  intro fs rest src processed h1 h2
  have hd1 : getKey (setKey (setKey fs "_source_url" (.str src)) "_extracted_at" .null) "@type"
      = none := by rw [getKey_meta fs src _ (by decide) (by decide)]; exact h1
  have hd2 : getKey (setKey (setKey fs "_source_url" (.str src)) "_extracted_at" .null) "type"
      = none := by rw [getKey_meta fs src _ (by decide) (by decide)]; exact h2
  have hm : mirror_type_fields
      (setKey (setKey fs "_source_url" (.str src)) "_extracted_at" .null)
      = setKey (setKey fs "_source_url" (.str src)) "_extracted_at" .null := by
    unfold mirror_type_fields
    rw [hd1, hd2]
  have hga : getKey (create_comprehensive_record fs src) "@type" = none := by
    unfold create_comprehensive_record
    rw [getKey_normalize_urls_fields, hm, hd1]
    rfl
  have hgb : getKey (create_comprehensive_record fs src) "type" = none := by
    unfold create_comprehensive_record
    rw [getKey_normalize_urls_fields, hm, hd2]
    rfl
  exact process_cons_not_included fs rest src processed
    (hA (create_comprehensive_record fs src) hga hgb)

/-- Witness for C7 at a typeless record. -/
theorem C7_witness :
    getKey [("name", Json.str "x")] "@type" = none
  ∧ getKey [("name", Json.str "x")] "type" = none
  ∧ should_include_record [("name", Json.str "x")] = false
  ∧ process_json_data_objects [Json.obj [("name", Json.str "x")]] "https://s/p" []
      = process_json_data_objects [] "https://s/p" [] :=
  ⟨by decide, by decide,
    C7_no_type_rejected.1 [("name", Json.str "x")] (by decide) (by decide),
    C7_no_type_rejected.2 [("name", Json.str "x")] [] "https://s/p" []
      (by decide) (by decide)⟩

/-- C8, counterexample: a record whose type value is the empty string —
a type set (`{""}`) disjoint from both the skip set and the content
set — carrying the content indicator `name` is nevertheless rejected:
the filter treats a falsy type value like a missing one. -/
theorem C8_counterexample :
    should_include_record [("@type", Json.str ""), ("name", Json.str "x")] = false
  ∧ content_types.contains "" = false
  ∧ skip_types.contains "" = false
  ∧ hasKey [("@type", Json.str ""), ("name", Json.str "x")] "name" = true := by decide

/-- C8 (amended): a record whose (truthy, i.e. non-empty) type value
yields a type list disjoint from both the content set and the skip
set, and which carries at least one content-indicator field, is
accepted by the filter — for a single string type as for a sequence of
strings. -/
theorem C8_indicator_accepted (r : PyDict)
    (ht : pyTruthy (get_type_val r) = true)
    (hc : (typeAsList (get_type_val r)).any
        (fun t => content_types.any (fun c => jsonIsStr t c)) = false)
    (hs : (typeAsList (get_type_val r)).any
        (fun t => skip_types.any (fun c => jsonIsStr t c)) = false)
    (hf : content_fields.any (fun f => hasKey r f) = true) :
    should_include_record r = true := by
  simp [should_include_record, ht, hc, hs, hf]

/-- Witness for C8 at a record with the unknown single-string type
`CustomKind`, and implicitly (via `typeAsList`) the same shape the
filter uses for sequences. -/
theorem C8_witness :
    pyTruthy (get_type_val [("@type", Json.str "CustomKind"),
      ("description", Json.str "d")]) = true
  ∧ should_include_record [("@type", Json.str "CustomKind"),
      ("description", Json.str "d")] = true
  ∧ should_include_record [("@type", Json.arr [Json.str "KindA", Json.str "KindB"]),
      ("text", Json.str "t")] = true :=
  ⟨by decide,
    C8_indicator_accepted [("@type", Json.str "CustomKind"), ("description", Json.str "d")]
      (by decide) (by decide) (by decide) (by decide),
    C8_indicator_accepted [("@type", Json.arr [Json.str "KindA", Json.str "KindB"]),
      ("text", Json.str "t")]
      (by decide) (by decide) (by decide) (by decide)⟩

/-- The identity key of a record with a string type and none of the
four identifier fields is the type followed by `":None"`. -/
theorem key_of_no_ids (r : PyDict) (t : String)
    (ht : getKey r "@type" = some (.str t))
    (ha : getKey r "@id" = none) (hb : getKey r "url" = none)
    (hc : getKey r "name" = none) (hd : getKey r "headline" = none) :
    create_unique_key_from_record r = some (t ++ ":None") := by
  unfold create_unique_key_from_record
  rw [ht, ha, hb, hc, hd]
  simp [pyOr, pyStr, pyTruthy]
  rw [String.append_assoc]
  rfl

/-- C9 (confirmed): two distinct accepted records with the same string
type and none of `@id`, `url`, `name`, `headline` share the identity
key `type ++ ":None"`, so only the first is emitted even though their
remaining content differs. -/
theorem C9_typeonly_collision (fs1 fs2 : PyDict) (src : String)
    (processed : List String) (t : String) (out1 : PyDict)
    (_hne : fs1 ≠ fs2)
    (ht1 : getKey (create_comprehensive_record fs1 src) "@type" = some (.str t))
    (ht2 : getKey (create_comprehensive_record fs2 src) "@type" = some (.str t))
    (h1a : getKey (create_comprehensive_record fs1 src) "@id" = none)
    (h1b : getKey (create_comprehensive_record fs1 src) "url" = none)
    (h1c : getKey (create_comprehensive_record fs1 src) "name" = none)
    (h1d : getKey (create_comprehensive_record fs1 src) "headline" = none)
    (h2a : getKey (create_comprehensive_record fs2 src) "@id" = none)
    (h2b : getKey (create_comprehensive_record fs2 src) "url" = none)
    (h2c : getKey (create_comprehensive_record fs2 src) "name" = none)
    (h2d : getKey (create_comprehensive_record fs2 src) "headline" = none)
    (hf1 : should_include_record (create_comprehensive_record fs1 src) = true)
    (hf2 : should_include_record (create_comprehensive_record fs2 src) = true)
    (hen1 : enrich_record (create_comprehensive_record fs1 src) = some out1)
    (hseen : processed.contains (t ++ ":None") = false) :
    create_unique_key_from_record (create_comprehensive_record fs1 src)
      = some (t ++ ":None")
  ∧ create_unique_key_from_record (create_comprehensive_record fs2 src)
      = some (t ++ ":None")
  ∧ (process_json_data_objects [.obj fs1, .obj fs2] src processed).1 = [out1] := by
  have hk1 := key_of_no_ids _ t ht1 h1a h1b h1c h1d
  have hk2 := key_of_no_ids _ t ht2 h2a h2b h2c h2d
  refine ⟨hk1, hk2, ?_⟩
  rw [process_cons_included fs1 [.obj fs2] src processed (t ++ ":None") out1
      hf1 hk1 hseen hen1,
    process_cons_dup fs2 [] src ((t ++ ":None") :: processed) (t ++ ":None")
      hf2 hk2 (by simp)]
  rfl

/-- Witness for C9: two type-only `Article` records with different
descriptions collapse to the key `"Article:None"` and one output. -/
theorem C9_witness :
    ([("@type", Json.str "Article"), ("description", Json.str "d1")] : PyDict)
      ≠ [("@type", Json.str "Article"), ("description", Json.str "d2")]
  ∧ (create_unique_key_from_record (create_comprehensive_record
        [("@type", Json.str "Article"), ("description", Json.str "d1")] "https://s/p")
        = some ("Article" ++ ":None")
    ∧ create_unique_key_from_record (create_comprehensive_record
        [("@type", Json.str "Article"), ("description", Json.str "d2")] "https://s/p")
        = some ("Article" ++ ":None")
    ∧ (process_json_data_objects
        [Json.obj [("@type", Json.str "Article"), ("description", Json.str "d1")],
         Json.obj [("@type", Json.str "Article"), ("description", Json.str "d2")]]
        "https://s/p" []).1
        = [[("@type", Json.str "Article"), ("description", Json.str "d1"),
            ("_source_url", Json.str "https://s/p"), ("_extracted_at", Json.null),
            ("type", Json.str "Article")]]) :=
  ⟨by decide,
    C9_typeonly_collision
      [("@type", Json.str "Article"), ("description", Json.str "d1")]
      [("@type", Json.str "Article"), ("description", Json.str "d2")]
      "https://s/p" [] "Article"
      [("@type", Json.str "Article"), ("description", Json.str "d1"),
       ("_source_url", Json.str "https://s/p"), ("_extracted_at", Json.null),
       ("type", Json.str "Article")]
      (by decide) (by decide) (by decide) (by decide) (by decide) (by decide)
      (by decide) (by decide) (by decide) (by decide) (by decide) (by decide)
      (by decide) (by decide) (by decide)⟩

/-- C10 (confirmed): a present-but-empty type value (empty string or
empty sequence) is rejected by the content filter, the same result as
for a missing type. -/
theorem C10_empty_type_rejected (r : PyDict)
    (h : get_type_val r = .str "" ∨ get_type_val r = .arr []) :
    should_include_record r = false := by
  rcases h with h | h <;> simp [should_include_record, h, pyTruthy]

/-- Witness for C10 at records with `@type` equal to `""` and `[]`. -/
theorem C10_witness :
    (get_type_val [("@type", Json.str "")] = Json.str ""
      ∨ get_type_val [("@type", Json.str "")] = Json.arr [])
  ∧ should_include_record [("@type", Json.str "")] = false
  ∧ should_include_record [("@type", Json.arr []), ("name", Json.str "x")] = false :=
  ⟨Or.inl (by decide),
    C10_empty_type_rejected [("@type", Json.str "")] (Or.inl (by decide)),
    C10_empty_type_rejected [("@type", Json.arr []), ("name", Json.str "x")]
      (Or.inr (by decide))⟩
